import Mathlib

/-! Verification of the grid reconciler (format_values, src/range.py) and the
serial-date converter (number_to_date / date_to_number, src/tools.py) of the
automate_excel repository, as a shallow embedding in Lean. -/

namespace AutomateExcel

/-! Part 1: the data model of the reconciler.

A Python value passed to format_values is a scalar (None, an int, a str, a
bool) or a list/tuple of values. Strings count as scalars here because the
source predicate is_iter explicitly excludes str. -/

/-- A Python value as handled by format_values: a scalar or a list/tuple. -/
inductive Value where
  | none : Value
  | int : Int → Value
  | str : String → Value
  | bool : Bool → Value
  | seq : List Value → Value

/-- Embeds is_iter from src/range.py: true exactly for non-str iterables,
here the list/tuple constructor. -/
def is_iter : Value → Bool
  | .seq _ => true
  | _ => false

/-- The classification prefix of format_values (src/range.py lines 312-317):
a non-iterable is wrapped as a one-element tuple; an iterable with at least
one iterable element is treated as a sequence of rows with scalar elements
promoted to one-element tuples; any other iterable is wrapped whole as a
one-element tuple (a single row). -/
def classify : Value → List Value
  | .seq l =>
      if l.any is_iter then l.map (fun v => if is_iter v then v else .seq [v])
      else [.seq l]
  | v => [v]

/-- Embeds the Python expression (len(v) if is_iter(v) else 1). -/
def rowLen : Value → Nat
  | .seq l => l.length
  | _ => 1

/-- Embeds max([len(v) if is_iter(v) else 1 for v in values]) from line 318.
The Python max of a nonempty list of naturals agrees with this fold from 0,
and the classified list is never empty. -/
def maxRowLen (vs : List Value) : Nat :=
  (vs.map rowLen).foldl Nat.max 0

/-- The repository error class raised by format_values on a dimension
mismatch. -/
structure ExcelError where
  msg : String

/-- A grid is a row-major list of rows of cell values; the numpy fill value
None is Value.none. -/
abbrev Grid := List (List Value)

/-- Embeds np.full(shape=(rows, col), fill_value=None) from line 320. -/
def emptyGrid (r c : Nat) : Grid :=
  List.replicate r (List.replicate c Value.none)

/-- Functional rendering of the numpy cell assignment array[i, j] = v. Out of
range writes are no-ops; they are unreachable on the paths format_values
takes. -/
def setCell (g : Grid) (i j : Nat) (v : Value) : Grid :=
  g.set i ((g[i]?.getD []).set j v)

/-- Embeds the inner loop (for j, v in enumerate(value): array[i, j] = v)
from lines 323-324, starting at column index j. -/
def fillRowLoop (i : Nat) : List Value → Nat → Grid → Grid
  | [], _, g => g
  | x :: rest, j, g => fillRowLoop i rest (j + 1) (setCell g i j x)

/-- Embeds the body of the outer loop (lines 321-326): a list/tuple element
fills row i cell by cell; any other element v is written by array[0, i] = v. -/
def fillRow (g : Grid) (i : Nat) : Value → Grid
  | .seq l => fillRowLoop i l 0 g
  | v => setCell g 0 i v

/-- Embeds the outer loop (for i, value in enumerate(values)) from line 321,
starting at row index i. -/
def fillLoop : List Value → Nat → Grid → Grid
  | [], _, g => g
  | v :: rest, i, g => fillLoop rest (i + 1) (fillRow g i v)

/-- Embeds format_values from src/range.py lines 291-327: classify the input,
raise ExcelError when the classified shape exceeds (rows, col), otherwise
fill a rows-by-col grid of None row by row and return it. -/
def format_values (values : Value) (rows col : Int) : Except ExcelError Grid :=
  let vs := classify values
  if ((vs.length : Int) > rows ∨ ((maxRowLen vs : Int) > col)) then
    .error (ExcelError.mk "Dimensions of values passed exceed dimensions of range.")
  else
    .ok (fillLoop vs 0 (emptyGrid rows.toNat col.toNat))

/-- The promotion applied to each element in the nested branch of classify:
(v if is_iter(v) else (v,)). -/
def promote (v : Value) : Value := if is_iter v then v else .seq [v]

/-- The element list of a sequence value (a scalar is its own singleton). -/
def seqElems : Value → List Value
  | .seq m => m
  | v => [v]

/-- A row of length exactly c: the given cells followed by trailing None
padding. -/
def padRow (l : List Value) (c : Nat) : List Value :=
  l ++ List.replicate (c - l.length) Value.none

/-- Position (i, j) is covered by the classified input vs when some element
of vs writes to it: element k, when a sequence, writes row k at columns below
its length; any other element k is written at row 0 column k. -/
def covered (vs : List Value) (i j : Nat) : Prop :=
  ∃ k : Nat, ∃ v : Value, vs[k]? = some v ∧
    (match v with
     | .seq l => i = k ∧ j < l.length
     | _ => i = 0 ∧ j = k)

/-- Cell (i, j) of a grid, when both indices are in range. -/
def cell (g : Grid) (i j : Nat) : Option Value :=
  (g[i]?.getD [])[j]?

/-! Part 2: the serial-date converter.

number_to_date and date_to_number (src/tools.py lines 94-103) delegate to the
Python datetime library; its proleptic Gregorian ordinal arithmetic is
embedded below following the reference implementation of the datetime module
(functions ymd2ord and ord2ymd with the month tables), including the
OverflowError raised when a result falls outside the supported ordinal range
1..3652059 (years 1..9999). -/

/-- A calendar date as a year, month, day triple. -/
structure Ymd where
  year : Nat
  month : Nat
  day : Nat
deriving DecidableEq, Repr

/-- Errors the Python runtime raises on these paths: OverflowError from date
arithmetic out of range, TypeError from an unsupported operation. -/
inductive PyError where
  | overflow : PyError
  | typeError : PyError
deriving DecidableEq, Repr

/-- A value of the datetime library: a datetime or a date. Time-of-day is
always midnight on the paths taken here and is omitted. -/
inductive PyDt where
  | datetime : Ymd → PyDt
  | date : Ymd → PyDt
deriving DecidableEq, Repr

/-- Days in each month of a non-leap year, per the datetime module table. -/
def DAYS_IN_MONTH (m : Nat) : Nat :=
  match m with
  | 1 => 31 | 2 => 28 | 3 => 31 | 4 => 30 | 5 => 31 | 6 => 30
  | 7 => 31 | 8 => 31 | 9 => 30 | 10 => 31 | 11 => 30 | 12 => 31
  | _ => 0

/-- Days before the first of each month in a non-leap year, per the datetime
module table. -/
def DAYS_BEFORE_MONTH (m : Nat) : Nat :=
  match m with
  | 1 => 0 | 2 => 31 | 3 => 59 | 4 => 90 | 5 => 120 | 6 => 151
  | 7 => 181 | 8 => 212 | 9 => 243 | 10 => 273 | 11 => 304 | 12 => 334
  | _ => 0

/-- Gregorian leap-year rule, per the datetime module. -/
def is_leap (year : Nat) : Bool :=
  year % 4 == 0 && (year % 100 != 0 || year % 400 == 0)

/-- Number of days before January 1 of the given year, per the datetime
module. -/
def days_before_year (year : Nat) : Nat :=
  let y := year - 1
  y * 365 + y / 4 - y / 100 + y / 400

/-- Number of days in the given month of the given year. -/
def days_in_month (year month : Nat) : Nat :=
  if month == 2 && is_leap year then 29 else DAYS_IN_MONTH month

/-- Number of days in the given year preceding the first of the given
month. -/
def days_before_month (year month : Nat) : Nat :=
  DAYS_BEFORE_MONTH month + (if 2 < month && is_leap year then 1 else 0)

/-- Proleptic Gregorian ordinal of a date, with January 1 of year 1 as
day 1, per the datetime module. -/
def ymd2ord (year month day : Nat) : Nat :=
  days_before_year year + days_before_month year month + day

/-- Days in a 400-year cycle. -/
def DI400Y : Nat := 146097

/-- Days in a 100-year cycle. -/
def DI100Y : Nat := 36524

/-- Days in a 4-year cycle. -/
def DI4Y : Nat := 1461

/-- The largest supported ordinal, the ordinal of 9999-12-31. -/
def maxOrdinal : Nat := 3652059

/-- Inverse of ymd2ord on the supported ordinal range, translated from the
datetime module. -/
def ord2ymd (n0 : Nat) : Ymd := Id.run do
  let mut n := n0 - 1
  let n400 := n / DI400Y
  n := n % DI400Y
  let mut year := n400 * 400 + 1
  let n100 := n / DI100Y
  n := n % DI100Y
  let n4 := n / DI4Y
  n := n % DI4Y
  let n1 := n / 365
  n := n % 365
  year := year + n100 * 100 + n4 * 4 + n1
  if n1 == 4 || n100 == 4 then
    return Ymd.mk (year - 1) 12 31
  let leapyear := n1 == 3 && (n4 != 24 || n100 == 3)
  let mut month := (n + 50) >>> 5
  let mut preceding := DAYS_BEFORE_MONTH month + (if 2 < month && leapyear then 1 else 0)
  if n < preceding then
    month := month - 1
    preceding := preceding - (DAYS_IN_MONTH month + (if month == 2 && leapyear then 1 else 0))
  n := n - preceding
  return Ymd.mk year month (n + 1)

/-- The timedelta(days=number) constructor: raises OverflowError when the day
count exceeds 999999999 in magnitude, otherwise carries the day count. -/
def timedelta (days : Int) : Except PyError Int :=
  if days.natAbs ≤ 999999999 then .ok days else .error .overflow

/-- Addition of a day-count timedelta to a datetime, per the datetime module:
the result is ord2ymd of the shifted ordinal when that ordinal lies in
1..maxOrdinal, and OverflowError otherwise. -/
def datetimeAdd (d : Ymd) (td : Int) : Except PyError Ymd :=
  let o : Int := (ymd2ord d.year d.month d.day : Int) + td
  if 0 < o ∧ o ≤ (maxOrdinal : Int) then .ok (ord2ymd o.toNat) else .error .overflow

/-- Embeds number_to_date from src/tools.py lines 94-97: the datetime
1899-12-30 plus timedelta(days=number). A raised error propagates to the
caller at once, as a Python exception does. -/
def number_to_date (number : Int) : Except PyError PyDt :=
  let date_origin := Ymd.mk 1899 12 30
  match timedelta number with
  | .error e => .error e
  | .ok td =>
      match datetimeAdd date_origin td with
      | .error e => .error e
      | .ok new_date => .ok (PyDt.datetime new_date)

/-- Subtraction of datetime values as the Python runtime performs it: a
difference of two dates or of two datetimes yields a day-count timedelta;
subtracting a date from a datetime (or conversely) is unsupported and raises
TypeError. -/
def pySubDays (a b : PyDt) : Except PyError Int :=
  match a, b with
  | .date d1, .date d2 =>
      .ok ((ymd2ord d1.year d1.month d1.day : Int) - ymd2ord d2.year d2.month d2.day)
  | .datetime d1, .datetime d2 =>
      .ok ((ymd2ord d1.year d1.month d1.day : Int) - ymd2ord d2.year d2.month d2.day)
  | _, _ => .error .typeError

/-- The call expression days() on a timedelta: the attribute days is an int,
and calling an int raises TypeError. -/
def callDays (_td : Int) : Except PyError Int :=
  .error .typeError

/-- Embeds date_to_number from src/tools.py lines 100-103: subtract the date
1899-12-30 from the argument and call days() on the result. A raised error
propagates to the caller at once, as a Python exception does. -/
def date_to_number (date : PyDt) : Except PyError Int :=
  let date_origin := PyDt.date (Ymd.mk 1899 12 30)
  match pySubDays date date_origin with
  | .error e => .error e
  | .ok td =>
      match callDays td with
      | .error e => .error e
      | .ok number => .ok number

/-! Part 3: helper lemmas about the functional grid operations. -/

/-- The write trace of the inner fill loop: cells written from column j
onward, one per element. -/
def writeRow : List Value → Nat → List Value → List Value
  | row, _, [] => row
  | row, j, x :: rest => writeRow (row.set j x) (j + 1) rest

theorem set_getD {α : Type _} (g : List α) (i : Nat) (x : α) :
    g.set i (g[i]?.getD x) = g := by
  induction g generalizing i with
  | nil => simp
  | cons a t ih =>
    cases i with
    | zero => simp
    | succ n => simp [List.set_cons_succ, ih]

theorem set_oob {α : Type _} (g : List α) (i : Nat) (x : α) (h : g.length ≤ i) :
    g.set i x = g := by
  induction g generalizing i with
  | nil => simp
  | cons a t ih =>
    cases i with
    | zero => simp at h
    | succ n =>
      simp only [List.length_cons] at h
      simp [List.set_cons_succ, ih n (by omega)]

theorem length_setCell (g : Grid) (i j : Nat) (v : Value) :
    (setCell g i j v).length = g.length := by
  simp [setCell]

theorem setCell_get_ne (g : Grid) (i j : Nat) (v : Value) (k : Nat) (h : i ≠ k) :
    (setCell g i j v)[k]? = g[k]? := by
  simp [setCell, List.getElem?_set_ne h]

theorem writeRow_get (l : List Value) (row : List Value) (j k : Nat) :
    (writeRow row j l)[k]? =
      if j ≤ k ∧ k - j < l.length then
        (if k < row.length then l[k - j]? else Option.none)
      else row[k]? := by
  induction l generalizing row j with
  | nil => simp [writeRow]
  | cons x rest ih =>
    rw [writeRow, ih]
    rcases Nat.lt_trichotomy k j with hkj | hkj | hkj
    · have h1 : ¬(j + 1 ≤ k ∧ k - (j + 1) < rest.length) := by omega
      have h2 : ¬(j ≤ k ∧ k - j < (x :: rest).length) := by
        simp only [List.length_cons]; omega
      rw [if_neg h1, if_neg h2, List.getElem?_set_ne (by omega)]
    · subst hkj
      have h1 : ¬(k + 1 ≤ k ∧ k - (k + 1) < rest.length) := by omega
      have h2 : k ≤ k ∧ k - k < (x :: rest).length := by
        simp only [List.length_cons]; omega
      rw [if_neg h1, if_pos h2, List.getElem?_set]
      simp
    · by_cases hr : k - (j + 1) < rest.length
      · have h1 : j + 1 ≤ k ∧ k - (j + 1) < rest.length := by omega
        have h2 : j ≤ k ∧ k - j < (x :: rest).length := by
          simp only [List.length_cons]; omega
        rw [if_pos h1, if_pos h2, List.length_set]
        have hd : k - j = (k - (j + 1)) + 1 := by omega
        rw [hd, List.getElem?_cons_succ]
      · have h1 : ¬(j + 1 ≤ k ∧ k - (j + 1) < rest.length) := by omega
        have h2 : ¬(j ≤ k ∧ k - j < (x :: rest).length) := by
          simp only [List.length_cons]; omega
        rw [if_neg h1, if_neg h2, List.getElem?_set_ne (by omega)]

theorem length_writeRow (l : List Value) (row : List Value) (j : Nat) :
    (writeRow row j l).length = row.length := by
  induction l generalizing row j with
  | nil => rfl
  | cons x rest ih => rw [writeRow, ih, List.length_set]

theorem padRow_get (l : List Value) (c k : Nat) (h : l.length ≤ c) :
    (padRow l c)[k]? =
      if k < l.length then l[k]?
      else if k < c then some Value.none else Option.none := by
  unfold padRow
  rw [List.getElem?_append]
  by_cases h1 : k < l.length
  · simp only [if_pos h1]
  · simp only [if_neg h1, List.getElem?_replicate]
    by_cases h2 : k < c
    · simp only [if_pos (show k - l.length < c - l.length by omega), if_pos h2]
    · simp only [if_neg (show ¬(k - l.length < c - l.length) by omega), if_neg h2]

theorem length_padRow (l : List Value) (c : Nat) (h : l.length ≤ c) :
    (padRow l c).length = c := by
  simp [padRow]
  omega

theorem writeRow_replicate (l : List Value) (c : Nat) (h : l.length ≤ c) :
    writeRow (List.replicate c Value.none) 0 l = padRow l c := by
  apply List.ext_getElem?
  intro k
  rw [writeRow_get, padRow_get l c k h]
  simp only [List.length_replicate, Nat.sub_zero, Nat.zero_le, true_and]
  by_cases h1 : k < l.length
  · rw [if_pos h1, if_pos (show k < c by omega), if_pos h1]
  · rw [if_neg h1, List.getElem?_replicate, if_neg h1]

theorem le_foldl_max (l : List Nat) (b : Nat) : b ≤ l.foldl Nat.max b := by
  induction l generalizing b with
  | nil => simp
  | cons x t ih => exact le_trans (Nat.le_max_left b x) (ih (Nat.max b x))

theorem mem_le_foldl_max (l : List Nat) (a : Nat) (h : a ∈ l) (b : Nat) :
    a ≤ l.foldl Nat.max b := by
  induction l generalizing b with
  | nil => cases h
  | cons x t ih =>
    rcases List.mem_cons.mp h with rfl | h2
    · exact le_trans (Nat.le_max_right b a) (le_foldl_max t _)
    · exact ih h2 _

theorem rowLen_le_maxRowLen (vs : List Value) (k : Nat) (v : Value)
    (h : vs[k]? = some v) : rowLen v ≤ maxRowLen vs := by
  have hm : v ∈ vs := List.mem_iff_getElem?.mpr ⟨k, h⟩
  exact mem_le_foldl_max _ _ (List.mem_map_of_mem rowLen hm) 0

theorem classify_len_pos (v : Value) : 0 < (classify v).length := by
  cases v with
  | seq l =>
    simp only [classify]
    by_cases h : l.any is_iter
    · rw [if_pos h]
      rcases List.any_eq_true.mp h with ⟨x, hx, _⟩
      cases l with
      | nil => cases hx
      | cons a t => simp
    · rw [if_neg h]; simp
  | none => simp [classify]
  | int n => simp [classify]
  | str s => simp [classify]
  | bool b => simp [classify]

theorem classify_cases (v : Value) :
    (∃ x, classify v = [x] ∧ is_iter x = false) ∨
    (∀ w ∈ classify v, is_iter w = true) := by
  cases v with
  | seq l =>
    right
    simp only [classify]
    by_cases h : l.any is_iter
    · rw [if_pos h]
      intro w hw
      rcases List.mem_map.mp hw with ⟨u, _, rfl⟩
      by_cases hiu : is_iter u
      · rw [if_pos hiu]; exact hiu
      · rw [if_neg hiu]; rfl
    · rw [if_neg h]
      intro w hw
      simp only [List.mem_singleton] at hw
      subst hw
      rfl
  | none => exact Or.inl ⟨_, rfl, rfl⟩
  | int n => exact Or.inl ⟨_, rfl, rfl⟩
  | str s => exact Or.inl ⟨_, rfl, rfl⟩
  | bool b => exact Or.inl ⟨_, rfl, rfl⟩

theorem length_fillRowLoop (i : Nat) (l : List Value) (j : Nat) (g : Grid) :
    (fillRowLoop i l j g).length = g.length := by
  induction l generalizing j g with
  | nil => rfl
  | cons x rest ih => rw [fillRowLoop, ih, length_setCell]

theorem length_fillRow (g : Grid) (i : Nat) (v : Value) :
    (fillRow g i v).length = g.length := by
  cases v with
  | seq l => simp [fillRow, length_fillRowLoop]
  | none => simp [fillRow, length_setCell]
  | int n => simp [fillRow, length_setCell]
  | str s => simp [fillRow, length_setCell]
  | bool b => simp [fillRow, length_setCell]

theorem length_fillLoop (vs : List Value) (i : Nat) (g : Grid) :
    (fillLoop vs i g).length = g.length := by
  induction vs generalizing i g with
  | nil => rfl
  | cons v rest ih => rw [fillLoop, ih, length_fillRow]

theorem fillRowLoop_eq_set (i : Nat) (l : List Value) (j : Nat) (g : Grid) :
    fillRowLoop i l j g = g.set i (writeRow (g[i]?.getD []) j l) := by
  induction l generalizing j g with
  | nil =>
    rw [fillRowLoop, writeRow]
    exact (set_getD g i []).symm
  | cons x rest ih =>
    rw [fillRowLoop, ih, writeRow]
    unfold setCell
    by_cases hi : i < g.length
    · have hrow : g[i]? = some g[i] := List.getElem?_eq_getElem hi
      rw [hrow]
      simp only [Option.getD_some]
      rw [List.getElem?_set_self (by simpa using hi)]
      simp only [Option.getD_some]
      rw [List.set_set]
    · have hnone : g[i]? = none := List.getElem?_len_le (le_of_not_lt hi)
      have hle : g.length ≤ i := le_of_not_lt hi
      rw [hnone]
      simp only [Option.getD_none, List.set_nil]
      rw [set_oob g i _ hle, hnone]
      simp only [Option.getD_none, List.set_nil]

theorem fillRow_seq (g : Grid) (i : Nat) (l : List Value) :
    fillRow g i (.seq l) = fillRowLoop i l 0 g := rfl

theorem fillLoop_get_untouched (vs : List Value) (i : Nat) (g : Grid) (k : Nat)
    (hvs : ∀ v ∈ vs, is_iter v = true) (hk : k < i ∨ i + vs.length ≤ k) :
    (fillLoop vs i g)[k]? = g[k]? := by
  induction vs generalizing i g with
  | nil => rfl
  | cons v rest ih =>
    rw [fillLoop]
    have hv : is_iter v = true := hvs v (List.mem_cons_self v rest)
    obtain ⟨l, rfl⟩ : ∃ l, v = .seq l := by
      cases v <;> simp [is_iter] at hv ⊢
    simp only [List.length_cons] at hk
    rw [ih _ _ (fun w hw => hvs w (List.mem_cons_of_mem _ hw)) (by omega)]
    rw [fillRow_seq, fillRowLoop_eq_set]
    exact List.getElem?_set_ne (by omega)

theorem fillLoop_get_touched (vs : List Value) (i : Nat) (g : Grid) (k : Nat)
    (l : List Value)
    (hvs : ∀ v ∈ vs, is_iter v = true) (hk : vs[k]? = some (.seq l)) :
    (fillLoop vs i g)[i + k]? =
      Option.map (fun row => writeRow row 0 l) g[i + k]? := by
  induction vs generalizing i g k with
  | nil => simp at hk
  | cons v rest ih =>
    rw [fillLoop]
    have htail : ∀ w ∈ rest, is_iter w = true :=
      fun w hw => hvs w (List.mem_cons_of_mem _ hw)
    cases k with
    | zero =>
      simp only [List.getElem?_cons_zero, Option.some.injEq] at hk
      subst hk
      rw [fillLoop_get_untouched rest (i + 1) _ _ htail (Or.inl (by omega))]
      rw [Nat.add_zero, fillRow_seq, fillRowLoop_eq_set]
      by_cases hi : i < g.length
      · have hrow : g[i]? = some g[i] := List.getElem?_eq_getElem hi
        rw [List.getElem?_set_self (by simpa using hi), hrow]
        simp
      · have hnone : g[i]? = none := List.getElem?_len_le (le_of_not_lt hi)
        rw [set_oob g i _ (le_of_not_lt hi), hnone]
        rfl
    | succ n =>
      have hv : is_iter v = true := hvs v (List.mem_cons_self v rest)
      obtain ⟨l0, rfl⟩ : ∃ l0, v = .seq l0 := by
        cases v <;> simp [is_iter] at hv ⊢
      simp only [List.getElem?_cons_succ] at hk
      have hidx : i + (n + 1) = (i + 1) + n := by omega
      rw [hidx, ih (i + 1) _ n htail hk]
      rw [fillRow_seq, fillRowLoop_eq_set]
      rw [List.getElem?_set_ne (by omega)]

theorem emptyGrid_get (R C k : Nat) :
    (emptyGrid R C)[k]? =
      if k < R then some (List.replicate C Value.none) else Option.none := by
  simp [emptyGrid, List.getElem?_replicate]

theorem fillLoop_emptyGrid_get (vs : List Value) (R C k : Nat)
    (hvs : ∀ v ∈ vs, is_iter v = true)
    (hC : maxRowLen vs ≤ C) (hk : k < R) :
    (fillLoop vs 0 (emptyGrid R C))[k]? =
      some (match vs[k]? with
            | some (.seq l) => padRow l C
            | _ => List.replicate C Value.none) := by
  by_cases hkv : k < vs.length
  · have hv : vs[k]? = some vs[k] := List.getElem?_eq_getElem hkv
    have hvi : is_iter vs[k] = true :=
      hvs _ (List.mem_iff_getElem?.mpr ⟨k, hv⟩)
    obtain ⟨l, hl⟩ : ∃ l, vs[k] = .seq l := by
      cases hvk : vs[k] <;> rw [hvk] at hvi <;> simp [is_iter] at hvi ⊢
    rw [hl] at hv
    have hlen : l.length ≤ C := by
      have := rowLen_le_maxRowLen vs k (.seq l) hv
      simp [rowLen] at this
      omega
    have := fillLoop_get_touched vs 0 (emptyGrid R C) k l hvs hv
    rw [Nat.zero_add] at this
    rw [this, emptyGrid_get, if_pos hk, hv]
    simp [writeRow_replicate l C hlen]
  · have hnone : vs[k]? = none := List.getElem?_len_le (le_of_not_lt hkv)
    rw [fillLoop_get_untouched vs 0 _ k hvs (Or.inr (by omega))]
    rw [emptyGrid_get, if_pos hk, hnone]

theorem fillLoop_scalar (v : Value) (hv : is_iter v = false) (R C : Nat)
    (hR : 1 ≤ R) (hC : 1 ≤ C) :
    fillLoop [v] 0 (emptyGrid R C) =
      (v :: List.replicate (C - 1) Value.none) ::
        List.replicate (R - 1) (List.replicate C Value.none) := by
  obtain ⟨R1, rfl⟩ : ∃ R1, R = R1 + 1 := ⟨R - 1, by omega⟩
  obtain ⟨C1, rfl⟩ : ∃ C1, C = C1 + 1 := ⟨C - 1, by omega⟩
  have hfill : fillLoop [v] 0 (emptyGrid (R1 + 1) (C1 + 1)) =
      fillRow (emptyGrid (R1 + 1) (C1 + 1)) 0 v := rfl
  have hscal : fillRow (emptyGrid (R1 + 1) (C1 + 1)) 0 v =
      setCell (emptyGrid (R1 + 1) (C1 + 1)) 0 0 v := by
    cases v <;> simp [is_iter] at hv ⊢ <;> rfl
  rw [hfill, hscal]
  simp only [emptyGrid, List.replicate_succ, setCell]
  simp [List.replicate_succ]

/-! Part 4: extraction lemmas for format_values. -/

theorem format_values_ok (values : Value) (rows col : Int) (g : Grid)
    (h : format_values values rows col = .ok g) :
    ((classify values).length : Int) ≤ rows ∧
    ((maxRowLen (classify values)) : Int) ≤ col ∧
    g = fillLoop (classify values) 0 (emptyGrid rows.toNat col.toNat) := by
  simp only [format_values] at h
  by_cases hc : (((classify values).length : Int) > rows ∨
      ((maxRowLen (classify values) : Int) > col))
  · rw [if_pos hc] at h; cases h
  · rw [if_neg hc] at h
    rcases not_or.mp hc with ⟨h1, h2⟩
    exact ⟨le_of_not_lt h1, le_of_not_lt h2, (Except.ok.inj h).symm⟩

theorem format_values_error_of (values : Value) (rows col : Int)
    (hc : rows < ((classify values).length : Int) ∨
      col < ((maxRowLen (classify values)) : Int)) :
    format_values values rows col =
      .error (ExcelError.mk "Dimensions of values passed exceed dimensions of range.") := by
  simp only [format_values]
  rw [if_pos hc]

theorem format_values_ok_of (values : Value) (rows col : Int)
    (h1 : ((classify values).length : Int) ≤ rows)
    (h2 : ((maxRowLen (classify values)) : Int) ≤ col) :
    format_values values rows col =
      .ok (fillLoop (classify values) 0 (emptyGrid rows.toNat col.toNat)) := by
  simp only [format_values]
  rw [if_neg (by omega)]

theorem maxRowLen_singleton (x : Value) : maxRowLen [x] = rowLen x := by
  simp [maxRowLen]

theorem rowLen_scalar (x : Value) (h : is_iter x = false) : rowLen x = 1 := by
  cases x with
  | seq l => simp [is_iter] at h
  | none => rfl
  | int n => rfl
  | str s => rfl
  | bool b => rfl

theorem ok_grid_all_seq (values : Value) (rows col : Int) (g : Grid)
    (h : format_values values rows col = .ok g)
    (hvs : ∀ v ∈ classify values, is_iter v = true) (k : Nat) (hk : k < rows.toNat) :
    g[k]? = some (match (classify values)[k]? with
      | some (.seq l) => padRow l col.toNat
      | _ => List.replicate col.toNat Value.none) := by
  obtain ⟨h1, h2, rfl⟩ := format_values_ok values rows col g h
  exact fillLoop_emptyGrid_get (classify values) rows.toNat col.toNat k hvs
    (by omega) hk

theorem ok_grid_scalar (values x : Value) (rows col : Int) (g : Grid)
    (h : format_values values rows col = .ok g)
    (hcl : classify values = [x]) (hx : is_iter x = false) :
    1 ≤ rows.toNat ∧ 1 ≤ col.toNat ∧
    g = (x :: List.replicate (col.toNat - 1) Value.none) ::
        List.replicate (rows.toNat - 1) (List.replicate col.toNat Value.none) := by
  obtain ⟨h1, h2, rfl⟩ := format_values_ok values rows col g h
  rw [hcl] at h1 h2 ⊢
  rw [maxRowLen_singleton, rowLen_scalar x hx] at h2
  simp only [List.length_singleton] at h1
  have hR : 1 ≤ rows.toNat := by omega
  have hC : 1 ≤ col.toNat := by omega
  exact ⟨hR, hC, fillLoop_scalar x hx rows.toNat col.toNat hR hC⟩

theorem covered_of_seq (vs : List Value) (k : Nat) (l : List Value)
    (h : vs[k]? = some (.seq l)) (j : Nat) (hj : j < l.length) : covered vs k j :=
  ⟨k, .seq l, h, rfl, hj⟩

theorem covered_of_scalar (vs : List Value) (k : Nat) (v : Value)
    (h : vs[k]? = some v) (hv : is_iter v = false) : covered vs 0 k := by
  refine ⟨k, v, h, ?_⟩
  cases v with
  | seq l => simp [is_iter] at hv
  | none => exact ⟨rfl, rfl⟩
  | int n => exact ⟨rfl, rfl⟩
  | str s => exact ⟨rfl, rfl⟩
  | bool b => exact ⟨rfl, rfl⟩

theorem grid_length_ok (values : Value) (rows col : Int) (g : Grid)
    (h : format_values values rows col = .ok g) : g.length = rows.toNat := by
  obtain ⟨h1, h2, rfl⟩ := format_values_ok values rows col g h
  rw [length_fillLoop]
  simp [emptyGrid]

theorem all_seq_get (vs : List Value) (hvs : ∀ v ∈ vs, is_iter v = true)
    (k : Nat) (hk : k < vs.length) : ∃ l, vs[k]? = some (.seq l) := by
  have hget : vs[k]? = some vs[k] := List.getElem?_eq_getElem hk
  have hvi : is_iter vs[k] = true := hvs _ (List.mem_iff_getElem?.mpr ⟨k, hget⟩)
  cases hvk : vs[k] with
  | seq l => exact ⟨l, by rw [hget, hvk]⟩
  | none => rw [hvk] at hvi; simp [is_iter] at hvi
  | int n => rw [hvk] at hvi; simp [is_iter] at hvi
  | str s => rw [hvk] at hvi; simp [is_iter] at hvi
  | bool b => rw [hvk] at hvi; simp [is_iter] at hvi

theorem ok_grid_row_seq (values : Value) (rows col : Int) (g : Grid)
    (h : format_values values rows col = .ok g)
    (hvs : ∀ v ∈ classify values, is_iter v = true) (k : Nat) (hk : k < rows.toNat)
    (l : List Value) (hl : (classify values)[k]? = some (.seq l)) :
    g[k]? = some (padRow l col.toNat) := by
  have hchar := ok_grid_all_seq values rows col g h hvs k hk
  rw [hl] at hchar
  exact hchar

theorem ok_grid_row_none (values : Value) (rows col : Int) (g : Grid)
    (h : format_values values rows col = .ok g)
    (hvs : ∀ v ∈ classify values, is_iter v = true) (k : Nat) (hk : k < rows.toNat)
    (hl : (classify values)[k]? = none) :
    g[k]? = some (List.replicate col.toNat Value.none) := by
  have hchar := ok_grid_all_seq values rows col g h hvs k hk
  rw [hl] at hchar
  exact hchar

theorem classify_row_len_le (values : Value) (rows col : Int) (g : Grid)
    (h : format_values values rows col = .ok g)
    (k : Nat) (l : List Value) (hl : (classify values)[k]? = some (.seq l)) :
    l.length ≤ col.toNat := by
  obtain ⟨h1, h2, _⟩ := format_values_ok values rows col g h
  have := rowLen_le_maxRowLen (classify values) k (.seq l) hl
  simp only [rowLen] at this
  omega

theorem grid_rows_ok (values : Value) (rows col : Int) (g : Grid)
    (h : format_values values rows col = .ok g) :
    ∀ row ∈ g, row.length = col.toNat := by
  intro row hrow
  rcases List.mem_iff_getElem?.mp hrow with ⟨k, hk⟩
  have hklen : k < rows.toNat := by
    have := (List.getElem?_eq_some.mp hk).1
    rwa [grid_length_ok values rows col g h] at this
  rcases classify_cases values with ⟨x, hcl, hx⟩ | hvs
  · obtain ⟨hR, hC, hg⟩ := ok_grid_scalar values x rows col g h hcl hx
    rw [hg] at hrow
    rcases List.mem_cons.mp hrow with rfl | hmem
    · simp only [List.length_cons, List.length_replicate]
      omega
    · rw [List.eq_of_mem_replicate hmem, List.length_replicate]
  · by_cases hik : k < (classify values).length
    · obtain ⟨l, hl⟩ := all_seq_get _ hvs k hik
      have hrk := ok_grid_row_seq values rows col g h hvs k hklen l hl
      rw [hk] at hrk
      rw [Option.some.inj hrk]
      exact length_padRow l col.toNat (classify_row_len_le values rows col g h k l hl)
    · have hl : (classify values)[k]? = none := List.getElem?_len_le (le_of_not_lt hik)
      have hrk := ok_grid_row_none values rows col g h hvs k hklen hl
      rw [hk] at hrk
      rw [Option.some.inj hrk, List.length_replicate]

/-! Part 5: the claims. -/

/-- C1: for positive target dimensions, a successful reconcile returns a grid
of exactly rows outer rows, each row of exactly columns cells, and every cell
not covered by the classified input holds the empty marker None. -/
theorem c1_grid_shape (values : Value) (rows col : Int) (hr : 0 < rows)
    (hc : 0 < col) (g : Grid) (h : format_values values rows col = .ok g) :
    (g.length : Int) = rows ∧ (∀ row ∈ g, (row.length : Int) = col) ∧
    (∀ i j : Nat, i < rows.toNat → j < col.toNat →
      ¬ covered (classify values) i j → cell g i j = some Value.none) := by
  have hg1 : g.length = rows.toNat := grid_length_ok values rows col g h
  have hg2 := grid_rows_ok values rows col g h
  refine ⟨by rw [hg1]; omega, fun row hrow => by rw [hg2 row hrow]; omega, ?_⟩
  intro i j hi hj hnc
  rcases classify_cases values with ⟨x, hcl, hx⟩ | hvs
  · obtain ⟨hR, hC, hg⟩ := ok_grid_scalar values x rows col g h hcl hx
    rw [hg]
    unfold cell
    cases i with
    | zero =>
      have hj0 : j ≠ 0 := by
        intro hj0
        subst hj0
        exact hnc (covered_of_scalar _ 0 x (by rw [hcl]; rfl) hx)
      simp only [List.getElem?_cons_zero, Option.getD_some]
      obtain ⟨j1, rfl⟩ : ∃ j1, j = j1 + 1 := ⟨j - 1, by omega⟩
      rw [List.getElem?_cons_succ, List.getElem?_replicate, if_pos (by omega)]
    | succ i1 =>
      simp only [List.getElem?_cons_succ, List.getElem?_replicate]
      rw [if_pos (by omega)]
      simp only [Option.getD_some]
      rw [List.getElem?_replicate, if_pos hj]
  · by_cases hik : i < (classify values).length
    · obtain ⟨l, hl⟩ := all_seq_get _ hvs i hik
      have hrowi := ok_grid_row_seq values rows col g h hvs i hi l hl
      have hjl : ¬ j < l.length := fun hjl => hnc (covered_of_seq _ i l hl j hjl)
      unfold cell
      rw [hrowi]
      simp only [Option.getD_some]
      rw [padRow_get l _ j (classify_row_len_le values rows col g h i l hl),
        if_neg hjl, if_pos hj]
    · have hl : (classify values)[i]? = none := List.getElem?_len_le (le_of_not_lt hik)
      have hrowi := ok_grid_row_none values rows col g h hvs i hi hl
      unfold cell
      rw [hrowi]
      simp only [Option.getD_some]
      rw [List.getElem?_replicate, if_pos hj]

/-- Witness for C1 at a concrete input: the scalar 7 written to a 1 by 1
range. -/
theorem c1_grid_shape_witness :
    (0 : Int) < 1 ∧ (0 : Int) < 1 ∧
    format_values (Value.int 7) 1 1 = .ok [[Value.int 7]] ∧
    ((([[Value.int 7]] : Grid).length : Int) = 1 ∧
     (∀ row ∈ ([[Value.int 7]] : Grid), (row.length : Int) = 1) ∧
     (∀ i j : Nat, i < (1 : Int).toNat → j < (1 : Int).toNat →
       ¬ covered (classify (Value.int 7)) i j →
       cell [[Value.int 7]] i j = some Value.none)) :=
  ⟨by decide, by decide, rfl,
   c1_grid_shape (Value.int 7) 1 1 (by decide) (by decide) [[Value.int 7]] rfl⟩

/-- C2: format_values raises the dimension error exactly when, after
classification, the row count exceeds rows or the maximum row length (a
scalar counting as 1) exceeds columns; otherwise it returns a complete
rows-by-columns grid, never a partial one. -/
theorem c2_error_iff (values : Value) (rows col : Int) :
    ((∃ e, format_values values rows col = .error e) ↔
      (rows < ((classify values).length : Int) ∨
       col < ((maxRowLen (classify values)) : Int))) ∧
    (¬(rows < ((classify values).length : Int) ∨
       col < ((maxRowLen (classify values)) : Int)) →
      ∃ g, format_values values rows col = .ok g ∧
        (g.length : Int) = rows ∧ ∀ row ∈ g, (row.length : Int) = col) := by
  constructor
  · constructor
    · rintro ⟨e, he⟩
      by_contra hc
      rcases not_or.mp hc with ⟨hc1, hc2⟩
      rw [format_values_ok_of values rows col (by omega) (by omega)] at he
      cases he
    · intro hc
      exact ⟨_, format_values_error_of values rows col hc⟩
  · intro hc
    rcases not_or.mp hc with ⟨hc1, hc2⟩
    have hok := format_values_ok_of values rows col (by omega) (by omega)
    refine ⟨_, hok, ?_, ?_⟩
    · rw [grid_length_ok values rows col _ hok]
      have hpos := classify_len_pos values
      omega
    · intro row hrow
      rw [grid_rows_ok values rows col _ hok row hrow]
      omega

/-- Witness for C2 at a concrete input: a two-element flat sequence against a
1 by 2 range. -/
theorem c2_error_iff_witness :
    ((∃ e, format_values (Value.seq [Value.int 1, Value.int 2]) 1 2 = .error e) ↔
      ((1 : Int) < ((classify (Value.seq [Value.int 1, Value.int 2])).length : Int) ∨
       (2 : Int) < ((maxRowLen (classify (Value.seq [Value.int 1, Value.int 2]))) : Int))) ∧
    (¬((1 : Int) < ((classify (Value.seq [Value.int 1, Value.int 2])).length : Int) ∨
       (2 : Int) < ((maxRowLen (classify (Value.seq [Value.int 1, Value.int 2]))) : Int)) →
      ∃ g, format_values (Value.seq [Value.int 1, Value.int 2]) 1 2 = .ok g ∧
        (g.length : Int) = 1 ∧ ∀ row ∈ g, (row.length : Int) = 2) :=
  c2_error_iff (Value.seq [Value.int 1, Value.int 2]) 1 2

/-- C9: for positive dimensions, the empty flat sequence is accepted,
classified as a single row of length zero, and yields a grid consisting
entirely of None. -/
theorem c9_empty_sequence (rows col : Int) (hr : 1 ≤ rows) (hc : 1 ≤ col) :
    format_values (.seq []) rows col =
      .ok (List.replicate rows.toNat (List.replicate col.toNat Value.none)) ∧
    classify (.seq []) = [.seq []] ∧
    rowLen (.seq []) = 0 := by
  refine ⟨?_, rfl, rfl⟩
  have h1 : ((classify (Value.seq [])).length : Int) ≤ rows := by
    have : (classify (Value.seq [])).length = 1 := rfl
    rw [this]; omega
  have h2 : ((maxRowLen (classify (Value.seq []))) : Int) ≤ col := by
    have : maxRowLen (classify (Value.seq [])) = 0 := rfl
    rw [this]; omega
  rw [format_values_ok_of (.seq []) rows col h1 h2]
  rfl

/-- Witness for C9 at a concrete input: a 2 by 3 range. -/
theorem c9_empty_sequence_witness :
    (1 : Int) ≤ 2 ∧ (1 : Int) ≤ 3 ∧
    (format_values (.seq []) 2 3 =
      .ok (List.replicate (2 : Int).toNat (List.replicate (3 : Int).toNat Value.none)) ∧
     classify (.seq []) = [.seq []] ∧
     rowLen (.seq []) = 0) :=
  ⟨by decide, by decide, c9_empty_sequence 2 3 (by decide) (by decide)⟩

/-- C10: the classified structure always has at least one row; hence with
rows at most 0 every input is rejected with the dimension error, and a
successfully returned grid never has zero rows. -/
theorem c10_classified_nonempty (values : Value) (rows col : Int) :
    0 < (classify values).length ∧
    (rows ≤ 0 → ∃ e, format_values values rows col = .error e) ∧
    (∀ g, format_values values rows col = .ok g → 0 < g.length) := by
  refine ⟨classify_len_pos values, ?_, ?_⟩
  · intro hrle
    refine ⟨_, format_values_error_of values rows col (Or.inl ?_)⟩
    have := classify_len_pos values
    omega
  · intro g hg
    obtain ⟨h1, _, _⟩ := format_values_ok values rows col g hg
    rw [grid_length_ok values rows col g hg]
    have := classify_len_pos values
    omega

/-- Witness for C10 at a concrete input: the scalar 3 against a 0 by 5
range. -/
theorem c10_classified_nonempty_witness :
    0 < (classify (Value.int 3)).length ∧
    ((0 : Int) ≤ 0 → ∃ e, format_values (Value.int 3) 0 5 = .error e) ∧
    (∀ g, format_values (Value.int 3) 0 5 = .ok g → 0 < g.length) :=
  c10_classified_nonempty (Value.int 3) 0 5

/-- C4: a scalar value (text included) lands only at cell (0,0) of the grid;
every other cell is None; in particular against a 1 by 1 range the grid is
exactly [[v]]. -/
theorem c4_scalar_at_origin (v : Value) (hv : is_iter v = false) (rows col : Int)
    (hr : 1 ≤ rows) (hc : 1 ≤ col) :
    ∃ g, format_values v rows col = .ok g ∧
      cell g 0 0 = some v ∧
      (∀ i j : Nat, i < rows.toNat → j < col.toNat → ¬(i = 0 ∧ j = 0) →
        cell g i j = some Value.none) ∧
      format_values v 1 1 = .ok [[v]] := by
  have hcl : classify v = [v] := by
    cases v with
    | seq l => simp [is_iter] at hv
    | none => rfl
    | int n => rfl
    | str s => rfl
    | bool b => rfl
  have h1 : ((classify v).length : Int) ≤ rows := by
    rw [hcl, List.length_singleton]; omega
  have h2 : ((maxRowLen (classify v)) : Int) ≤ col := by
    rw [hcl, maxRowLen_singleton, rowLen_scalar v hv]; omega
  have hR : 1 ≤ rows.toNat := by omega
  have hC : 1 ≤ col.toNat := by omega
  have hgrid : fillLoop (classify v) 0 (emptyGrid rows.toNat col.toNat) =
      (v :: List.replicate (col.toNat - 1) Value.none) ::
        List.replicate (rows.toNat - 1) (List.replicate col.toNat Value.none) := by
    rw [hcl]
    exact fillLoop_scalar v hv rows.toNat col.toNat hR hC
  refine ⟨_, format_values_ok_of v rows col h1 h2, ?_, ?_, ?_⟩
  · rw [hgrid]
    simp [cell]
  · intro i j hi hj hij
    rw [hgrid]
    unfold cell
    cases i with
    | zero =>
      have hj0 : j ≠ 0 := fun hj0 => hij ⟨rfl, hj0⟩
      simp only [List.getElem?_cons_zero, Option.getD_some]
      obtain ⟨j1, rfl⟩ : ∃ j1, j = j1 + 1 := ⟨j - 1, by omega⟩
      rw [List.getElem?_cons_succ, List.getElem?_replicate, if_pos (by omega)]
    | succ i1 =>
      simp only [List.getElem?_cons_succ, List.getElem?_replicate]
      rw [if_pos (by omega)]
      simp only [Option.getD_some]
      rw [List.getElem?_replicate, if_pos hj]
  · have h1a : ((classify v).length : Int) ≤ 1 := by
      rw [hcl, List.length_singleton]; omega
    have h2a : ((maxRowLen (classify v)) : Int) ≤ 1 := by
      rw [hcl, maxRowLen_singleton, rowLen_scalar v hv]; omega
    rw [format_values_ok_of v 1 1 h1a h2a, hcl]
    rw [fillLoop_scalar v hv (1 : Int).toNat (1 : Int).toNat (by decide) (by decide)]
    rfl

/-- Witness for C4 at a concrete input: the text Test against a 2 by 2
range. -/
theorem c4_scalar_at_origin_witness :
    is_iter (Value.str "Test") = false ∧ (1 : Int) ≤ 2 ∧ (1 : Int) ≤ 2 ∧
    (∃ g, format_values (Value.str "Test") 2 2 = .ok g ∧
      cell g 0 0 = some (Value.str "Test") ∧
      (∀ i j : Nat, i < (2 : Int).toNat → j < (2 : Int).toNat → ¬(i = 0 ∧ j = 0) →
        cell g i j = some Value.none) ∧
      format_values (Value.str "Test") 1 1 = .ok [[Value.str "Test"]]) :=
  ⟨rfl, by decide, by decide,
   c4_scalar_at_origin (Value.str "Test") rfl 2 2 (by decide) (by decide)⟩

/-- C5: a flat sequence of scalars of length at most columns becomes exactly
the first row, left aligned and padded at its trailing end with None; every
later row consists entirely of None. -/
theorem c5_flat_sequence (s : List Value) (hs : ∀ v ∈ s, is_iter v = false)
    (rows col : Int) (hr : 1 ≤ rows) (hk : (s.length : Int) ≤ col) :
    format_values (.seq s) rows col =
      .ok (padRow s col.toNat ::
        List.replicate (rows.toNat - 1) (List.replicate col.toNat Value.none)) := by
  have hany : s.any is_iter = false := by
    rw [List.any_eq_false]
    intro x hx
    simp [hs x hx]
  have hcl : classify (.seq s) = [.seq s] := by
    simp only [classify]
    rw [if_neg (by simp [hany])]
  have h1 : ((classify (Value.seq s)).length : Int) ≤ rows := by
    rw [hcl, List.length_singleton]; omega
  have h2 : ((maxRowLen (classify (Value.seq s))) : Int) ≤ col := by
    rw [hcl, maxRowLen_singleton]
    simpa [rowLen] using hk
  rw [format_values_ok_of _ rows col h1 h2, hcl]
  have hshow : fillLoop [Value.seq s] 0 (emptyGrid rows.toNat col.toNat) =
      fillRowLoop 0 s 0 (emptyGrid rows.toNat col.toNat) := rfl
  rw [hshow, fillRowLoop_eq_set]
  obtain ⟨R1, hR1⟩ : ∃ R1, rows.toNat = R1 + 1 := ⟨rows.toNat - 1, by omega⟩
  rw [hR1]
  simp only [emptyGrid, List.replicate_succ, List.getElem?_cons_zero,
    Option.getD_some, List.set_cons_zero, Nat.add_sub_cancel]
  rw [writeRow_replicate s col.toNat (by omega)]

/-- Witness for C5 at a concrete input: the flat sequence (1, 2) against a
2 by 3 range. -/
theorem c5_flat_sequence_witness :
    (∀ v ∈ [Value.int 1, Value.int 2], is_iter v = false) ∧
    (1 : Int) ≤ 2 ∧ (([Value.int 1, Value.int 2].length : Int)) ≤ 3 ∧
    format_values (.seq [Value.int 1, Value.int 2]) 2 3 =
      .ok (padRow [Value.int 1, Value.int 2] (3 : Int).toNat ::
        List.replicate ((2 : Int).toNat - 1)
          (List.replicate (3 : Int).toNat Value.none)) :=
  ⟨by decide, by decide, by decide,
   c5_flat_sequence [Value.int 1, Value.int 2] (by decide) 2 3 (by decide) (by decide)⟩

/-- C6: in the nested case every element of the input becomes the row at its
own index, scalars promoted to one-element rows, each row padded at its
trailing end independently; concretely the value ((1,2),1) against 2 by 3
yields ((1,2,None),(1,None,None)). -/
theorem c6_nested_promotion (l : List Value) (hl : l.any is_iter = true)
    (rows col : Int) (g : Grid) (h : format_values (.seq l) rows col = .ok g) :
    (∀ k : Nat, ∀ v : Value, l[k]? = some v →
      g[k]? = some (padRow (seqElems (promote v)) col.toNat)) ∧
    format_values (.seq [.seq [.int 1, .int 2], .int 1]) 2 3 =
      .ok [[.int 1, .int 2, Value.none], [.int 1, Value.none, Value.none]] := by
  refine ⟨?_, rfl⟩
  intro k v hkv
  have hcl : classify (.seq l) = l.map promote := by
    simp only [classify]
    rw [if_pos hl]
    rfl
  have hvs : ∀ w ∈ classify (.seq l), is_iter w = true := by
    rw [hcl]
    intro w hw
    rcases List.mem_map.mp hw with ⟨u, _, rfl⟩
    unfold promote
    by_cases hiu : is_iter u
    · rw [if_pos hiu]; exact hiu
    · rw [if_neg hiu]; rfl
  have hclk : (classify (.seq l))[k]? = some (promote v) := by
    rw [hcl, List.getElem?_map, hkv]
    rfl
  obtain ⟨lv, hlv⟩ : ∃ lv, promote v = .seq lv := by
    unfold promote
    by_cases hiv : is_iter v
    · cases v with
      | seq m => exact ⟨m, by rw [if_pos hiv]⟩
      | none => simp [is_iter] at hiv
      | int n => simp [is_iter] at hiv
      | str s => simp [is_iter] at hiv
      | bool b => simp [is_iter] at hiv
    · exact ⟨[v], by rw [if_neg hiv]⟩
  have hk : k < rows.toNat := by
    obtain ⟨h1, _, _⟩ := format_values_ok _ rows col g h
    have hkl : k < l.length := (List.getElem?_eq_some.mp hkv).1
    rw [hcl, List.length_map] at h1
    omega
  have hrow := ok_grid_row_seq (.seq l) rows col g h hvs k hk lv
    (by rw [hclk, hlv])
  rw [hlv]
  exact hrow

/-- Witness for C6 at a concrete input: the mixed nested value ((1,2),1)
against a 2 by 3 range. -/
theorem c6_nested_promotion_witness :
    ([Value.seq [Value.int 1, Value.int 2], Value.int 1].any is_iter = true) ∧
    format_values (.seq [Value.seq [Value.int 1, Value.int 2], Value.int 1]) 2 3 =
      .ok [[Value.int 1, Value.int 2, Value.none],
           [Value.int 1, Value.none, Value.none]] ∧
    ((∀ k : Nat, ∀ v : Value,
        ([Value.seq [Value.int 1, Value.int 2], Value.int 1])[k]? = some v →
        ([[Value.int 1, Value.int 2, Value.none],
          [Value.int 1, Value.none, Value.none]] : Grid)[k]? =
          some (padRow (seqElems (promote v)) (3 : Int).toNat)) ∧
     format_values (.seq [.seq [.int 1, .int 2], .int 1]) 2 3 =
       .ok [[.int 1, .int 2, Value.none], [.int 1, Value.none, Value.none]]) :=
  ⟨rfl, rfl,
   c6_nested_promotion [Value.seq [Value.int 1, Value.int 2], Value.int 1] rfl 2 3
     [[Value.int 1, Value.int 2, Value.none],
      [Value.int 1, Value.none, Value.none]] rfl⟩

/-! Part 6: the date-converter claims. -/

theorem number_to_date_in_range (n : Int) (h1 : -693593 ≤ n) (h2 : n ≤ 2958465) :
    number_to_date n = .ok (.datetime (ord2ymd (693594 + n).toNat)) := by
  have he : ((ymd2ord 1899 12 30 : Nat) : Int) = 693594 := rfl
  have hm : ((maxOrdinal : Nat) : Int) = 3652059 := rfl
  have ht : timedelta n = .ok n := by
    unfold timedelta
    rw [if_pos (show n.natAbs ≤ 999999999 by omega)]
  have hd : datetimeAdd (Ymd.mk 1899 12 30) n = .ok (ord2ymd (693594 + n).toNat) := by
    unfold datetimeAdd
    rw [if_pos (show (0 : Int) < ((ymd2ord 1899 12 30 : Nat) : Int) + n ∧
        ((ymd2ord 1899 12 30 : Nat) : Int) + n ≤ ((maxOrdinal : Nat) : Int) by
      rw [he, hm]
      exact ⟨by omega, by omega⟩)]
    rw [he]
  unfold number_to_date
  simp only [ht, hd]

/-- C7 counterexample: at n = -693594 number_to_date does not return any
calendar date at all; the datetime library raises OverflowError, refuting the
unrestricted claim that every integer n yields the date epoch plus n days. -/
theorem c7_counterexample :
    number_to_date (-693594) = .error PyError.overflow := rfl

/-- C7 (amended): for every n in the representable range -693593..2958465,
number_to_date returns the date whose ordinal is 693594 + n, where 693594 is
the ordinal of the fixed epoch 1899-12-30; in particular it maps 0 to
1899-12-30 and 1 to 1899-12-31. -/
theorem c7_epoch_shift (n : Int) (h1 : -693593 ≤ n) (h2 : n ≤ 2958465) :
    number_to_date n = .ok (.datetime (ord2ymd (693594 + n).toNat)) ∧
    ymd2ord 1899 12 30 = 693594 ∧
    number_to_date 0 = .ok (.datetime (Ymd.mk 1899 12 30)) ∧
    number_to_date 1 = .ok (.datetime (Ymd.mk 1899 12 31)) :=
  ⟨number_to_date_in_range n h1 h2, rfl, rfl, rfl⟩

/-- Witness for C7 at the concrete serial number 5. -/
theorem c7_epoch_shift_witness :
    (-693593 : Int) ≤ 5 ∧ (5 : Int) ≤ 2958465 ∧
    (number_to_date 5 = .ok (.datetime (ord2ymd ((693594 : Int) + 5).toNat)) ∧
     ymd2ord 1899 12 30 = 693594 ∧
     number_to_date 0 = .ok (.datetime (Ymd.mk 1899 12 30)) ∧
     number_to_date 1 = .ok (.datetime (Ymd.mk 1899 12 31))) :=
  ⟨by decide, by decide, c7_epoch_shift 5 (by decide) (by decide)⟩

/-- C8 counterexample: at the negative integer n = -700000 number_to_date
raises OverflowError instead of returning a date, refuting the claim that it
never fails for any integer input. -/
theorem c8_counterexample :
    number_to_date (-700000) = .error PyError.overflow := rfl

/-- C8 (amended): number_to_date returns a calendar date, rather than raising
an error, for every integer n in the representable range -693593..2958465
(the results spanning years 1 to 9999); outside that range the datetime
library raises OverflowError. -/
theorem c8_total_on_range (n : Int) :
    (-693593 ≤ n → n ≤ 2958465 → ∃ d : PyDt, number_to_date n = .ok d) ∧
    (693594 + n ≤ 0 ∨ 3652059 < 693594 + n →
      number_to_date n = .error PyError.overflow) := by
  constructor
  · intro h1 h2
    exact ⟨_, number_to_date_in_range n h1 h2⟩
  · intro hout
    have he : ((ymd2ord 1899 12 30 : Nat) : Int) = 693594 := rfl
    have hm : ((maxOrdinal : Nat) : Int) = 3652059 := rfl
    unfold number_to_date
    by_cases htd : n.natAbs ≤ 999999999
    · have ht : timedelta n = .ok n := by
        unfold timedelta
        rw [if_pos htd]
      have hd : datetimeAdd (Ymd.mk 1899 12 30) n = .error PyError.overflow := by
        unfold datetimeAdd
        rw [if_neg (show ¬((0 : Int) < ((ymd2ord 1899 12 30 : Nat) : Int) + n ∧
            ((ymd2ord 1899 12 30 : Nat) : Int) + n ≤ ((maxOrdinal : Nat) : Int)) by
          rw [he, hm]
          omega)]
      simp only [ht, hd]
    · have ht : timedelta n = .error PyError.overflow := by
        unfold timedelta
        rw [if_neg htd]
      simp only [ht]

/-- Witness for C8 at the concrete serial number -100. -/
theorem c8_total_on_range_witness :
    ((-693593 : Int) ≤ -100 → (-100 : Int) ≤ 2958465 →
      ∃ d : PyDt, number_to_date (-100) = .ok d) ∧
    ((693594 : Int) + (-100) ≤ 0 ∨ (3652059 : Int) < 693594 + (-100) →
      number_to_date (-100) = .error PyError.overflow) :=
  c8_total_on_range (-100)

/-- C3 (code bug): the round trip date_to_number (number_to_date 0) does not
return the serial number 0; it raises TypeError, because date_to_number
subtracts a plain date from the datetime produced by number_to_date, and
even on a plain date it would call the int attribute days of the timedelta
as a function. -/
theorem c3_roundtrip_raises :
    (number_to_date 0).bind date_to_number = .error PyError.typeError ∧
    (number_to_date 100000).bind date_to_number = .error PyError.typeError ∧
    date_to_number (PyDt.date (Ymd.mk 1899 12 31)) = .error PyError.typeError :=
  ⟨rfl, rfl, rfl⟩

end AutomateExcel
